import Mathlib

/-!
Verification of the GRDC-visualization script (`GRDC-visualization.py`).

The script parses a station table (one row per GRDC monitoring station,
with numeric columns `m_start`, `m_end` giving the measurement start/end
years and `lat`, `long` giving coordinates), derives the analysis period
with `get_data_period`, aggregates per-year station counts with
`count_stations` and per-year station coordinates with
`get_station_locations`, and renders them through a
`SubplotAnimation` object.

The table is embedded as a `List Station` (rows in dataframe order); the
numpy integer array `period` as a `List Int`; the python dict produced by
`get_station_locations` as an association list updated by dict-assignment
semantics (`dictInsert`).  Fallible operations (`np.min`/`np.max` of an
empty column, out-of-bounds indexing, dict lookup of a missing key, and
the `[:, 0]` column extraction of an empty `np.array`) are modelled with
`Option`.
-/

/-- One row of the parsed GRDC station table: measurement start year
(`m_start`), measurement end year (`m_end`), and the station coordinates
(`lat`, `long`).  The other columns of the spreadsheet are not read by the
aggregation or rendering code. -/
structure Station where
  m_start : Int
  m_end : Int
  lat : Rat
  long : Rat
deriving DecidableEq, Repr

/-- `np.arange(a, b)` on integers: the end-exclusive range
`[a, a+1, ..., b-1]`, empty when `b ≤ a`. -/
def arange (a b : Int) : List Int :=
  (List.range (b - a).toNat).map (fun k : Nat => a + (k : Int))

/-- `get_data_period(data)`: `m_start = np.min(data['m_start'])`,
`m_end = np.max(data['m_end'])`, `period = np.arange(m_start, m_end)`.
On an empty table the empty-column aggregate has no value and the call
fails, modelled as `none`. -/
def get_data_period (data : List Station) : Option (Int × Int × List Int) :=
  match (data.map Station.m_start).min?, (data.map Station.m_end).max? with
  | some m_start, some m_end => some (m_start, m_end, arange m_start m_end)
  | _, _ => none

/-- The station-activity test used by both aggregation loops:
`year >= data['m_start'].iloc[s] and year <= data['m_end'].iloc[s]`. -/
def isActive (s : Station) (year : Int) : Bool :=
  s.m_start ≤ year && year ≤ s.m_end

/-- The inner loop of `count_stations` for one year: scan the rows in
order and increment the counter for every active station (the counter
starts from the `np.zeros_like` entry, `0`). -/
def countActive (data : List Station) (year : Int) : Int :=
  data.foldl (fun acc s => if isActive s year then acc + 1 else acc) 0

/-- `count_stations(data, period)`: the integer array with one entry per
year of `period` (positionally aligned), each entry the number of active
stations that year. -/
def count_stations (data : List Station) (period : List Int) : List Int :=
  period.map (fun year => countActive data year)

/-- The inner loop of `get_station_locations` for one year: starting from
the empty list `ls`, append `(lon, lat)` for every active station, in row
order. -/
def activeCoords (data : List Station) (year : Int) : List (Rat × Rat) :=
  data.foldl (fun ls s => if isActive s year then ls ++ [(s.long, s.lat)] else ls) []

/-- Python dict assignment `d[k] = v` on an association list: replace the
value of an existing key, otherwise append the new binding. -/
def dictInsert {α : Type} (d : List (Int × α)) (k : Int) (v : α) : List (Int × α) :=
  match d with
  | [] => [(k, v)]
  | (k₀, v₀) :: rest => if k₀ = k then (k, v) :: rest else (k₀, v₀) :: dictInsert rest k v

/-- Python dict lookup `d[k]` on an association list: `none` models a
`KeyError`. -/
def lookupYear {α : Type} (d : List (Int × α)) (k : Int) : Option α :=
  match d with
  | [] => none
  | (k₀, v₀) :: rest => if k₀ = k then some v₀ else lookupYear rest k

/-- `get_station_locations(data, period)`: starting from the empty dict,
for each year of `period` assign `locations[year]` the coordinate list of
that year's active stations. -/
def get_station_locations (data : List Station) (period : List Int) :
    List (Int × List (Rat × Rat)) :=
  period.foldl (fun locations year => dictInsert locations year (activeCoords data year)) []

/-- The objects `count_stations` and `get_station_locations` receive and
may read or mutate: the parsed table and the period array. -/
structure Env where
  data : List Station
  period : List Int
deriving DecidableEq, Repr

/-- One iteration of the inner-loop body of `count_stations`, threading
the mutable state explicitly: the table, the period array, and the output
array `stations`.  The body reads `period[ip]` and row `is` of the table
and executes `stations[ip] += 1` when the station is active; no other
component of the state is written. -/
def countBody (σ : Env × List Int) (ip : Nat) (is : Nat) : Env × List Int :=
  match σ.1.period[ip]?, σ.1.data[is]? with
  | some year, some s =>
    match σ.2[ip]? with
    | some c => if isActive s year then (σ.1, σ.2.set ip (c + 1)) else σ
    | none => σ
  | _, _ => σ

/-- `count_stations` as an explicit state transformer: allocate
`stations = np.zeros_like(period)`, run the two nested index loops, and
return the final state (the table and period as left behind by the loops)
together with the output array. -/
def count_stations_run (data : List Station) (period : List Int) : Env × List Int :=
  (List.range period.length).foldl
    (fun σ ip => (List.range σ.1.data.length).foldl (fun τ is => countBody τ ip is) σ)
    (⟨data, period⟩, List.replicate period.length 0)

/-- One iteration of the outer-loop body of `get_station_locations`,
threading the mutable state explicitly: the table, the period array, and
the dict under construction.  The body builds the local list `ls` from the
table rows and executes `locations[year] = ls`; no other component of the
state is written. -/
def gslBody (σ : Env × List (Int × List (Rat × Rat))) (year : Int) :
    Env × List (Int × List (Rat × Rat)) :=
  (σ.1, dictInsert σ.2 year (activeCoords σ.1.data year))

/-- `get_station_locations` as an explicit state transformer: start from
the empty dict, run the loop over the period, and return the final state
together with the dict. -/
def get_station_locations_run (data : List Station) (period : List Int) :
    Env × List (Int × List (Rat × Rat)) :=
  period.foldl gslBody (⟨data, period⟩, [])

/-- The three dynamic drawables of the animation figure. -/
inductive Artist where
  | time
  | space
  | text
deriving DecidableEq, Repr

/-- The state of a `SubplotAnimation` object: the precomputed aggregates
(`stations`, `locations`, `period`), the data held by the three dynamic
drawables (`time_data` for the count line, `space_data` for the map
point-cloud as the `lons`/`lats` array pair, `text` for the year label),
the `_drawn_artists` bookkeeping list, and every remaining piece of figure
state (axes, limits, labels, the basemap background), abstracted as a
field of arbitrary type `β` since no frame code touches it. -/
structure AnimState (β : Type) where
  stations : List Int
  locations : List (Int × List (Rat × Rat))
  period : List Int
  time_data : List Int × List Int
  space_data : List Rat × List Rat
  text : String
  drawn_artists : List Artist
  background : β

/-- `SubplotAnimation._draw_frame(framedata)` for frame index `i`:
set the count line to `(period[:i], stations[:i])`, look up
`year = period[i]` (an out-of-bounds index fails), look up
`locations[year]` (a missing key fails), extract the `[:, 0]` and `[:, 1]`
columns (which fails on the shape-`(0,)` array produced by `np.array([])`
when no station is active), set the point-cloud and the year label, and
record the three dynamic drawables as the drawn artists. -/
def draw_frame {β : Type} (st : AnimState β) (i : Nat) : Option (AnimState β) :=
  match st.period[i]? with
  | none => none
  | some year =>
    match lookupYear st.locations year with
    | none => none
    | some coords =>
      if coords.isEmpty then none
      else
        some { st with
          time_data := (st.period.take i, st.stations.take i)
          space_data := (coords.map Prod.fst, coords.map Prod.snd)
          text := toString year
          drawn_artists := [Artist.time, Artist.space, Artist.text] }

/-- `SubplotAnimation.new_frame_seq()`: `iter(range(self.period.size))`. -/
def new_frame_seq {β : Type} (st : AnimState β) : List Nat :=
  List.range st.period.length

/-- A concrete animation state used to exercise `draw_frame`. -/
def exSt : AnimState Unit where
  stations := [2]
  locations := [(2000, [(20, 10)])]
  period := [2000]
  time_data := ([], [])
  space_data := ([], [])
  text := ""
  drawn_artists := []
  background := ()

/-- The state produced by `draw_frame exSt 0`. -/
def exSt' : AnimState Unit where
  stations := [2]
  locations := [(2000, [(20, 10)])]
  period := [2000]
  time_data := ([], [])
  space_data := ([20], [10])
  text := "2000"
  drawn_artists := [Artist.time, Artist.space, Artist.text]
  background := ()

section Lemmas

/-- The counting loop starting from accumulator `n` adds the number of
elements satisfying the test. -/
theorem foldl_count {α : Type} (p : α → Bool) (l : List α) (n : Int) :
    l.foldl (fun acc s => if p s then acc + 1 else acc) n =
      n + ((l.filter p).length : Int) := by
  induction l generalizing n with
  | nil => simp
  | cons a l ih =>
    rw [List.foldl_cons, List.filter_cons]
    by_cases h : p a
    · simp only [h, if_true, ih, List.length_cons]
      push_cast
      omega
    · simp [h, ih]

/-- `countActive` counts exactly the active rows. -/
theorem countActive_eq (data : List Station) (year : Int) :
    countActive data year = ((data.filter (fun s => isActive s year)).length : Int) := by
  simpa using foldl_count (fun s => isActive s year) data 0

/-- The collecting loop starting from accumulator `acc` appends the image
of the elements satisfying the test. -/
theorem foldl_collect {α β : Type} (p : α → Bool) (f : α → β) (l : List α) (acc : List β) :
    l.foldl (fun ls s => if p s then ls ++ [f s] else ls) acc =
      acc ++ (l.filter p).map f := by
  induction l generalizing acc with
  | nil => simp
  | cons a l ih =>
    by_cases h : p a <;> simp [List.filter_cons, h, ih]

/-- `activeCoords` collects exactly the `(long, lat)` pairs of the active
rows, in row order. -/
theorem activeCoords_eq (data : List Station) (year : Int) :
    activeCoords data year =
      (data.filter (fun s => isActive s year)).map (fun s => (s.long, s.lat)) := by
  simpa using foldl_collect (fun s => isActive s year) (fun s => (s.long, s.lat)) data []

/-- Unfolding the boolean activity test. -/
theorem isActive_iff (s : Station) (year : Int) :
    isActive s year = true ↔ s.m_start ≤ year ∧ year ≤ s.m_end := by
  simp [isActive]

/-- Membership in the end-exclusive integer range. -/
theorem mem_arange (a b y : Int) : y ∈ arange a b ↔ a ≤ y ∧ y < b := by
  simp only [arange, List.mem_map, List.mem_range]
  constructor
  · rintro ⟨k, hk, rfl⟩
    omega
  · rintro ⟨h₁, h₂⟩
    exact ⟨(y - a).toNat, by omega, by omega⟩

/-- Looking up the key just assigned returns the assigned value. -/
theorem lookupYear_dictInsert_self {α : Type} (d : List (Int × α)) (k : Int) (v : α) :
    lookupYear (dictInsert d k v) k = some v := by
  induction d with
  | nil => simp [dictInsert, lookupYear]
  | cons e rest ih =>
    obtain ⟨k₀, v₀⟩ := e
    by_cases h : k₀ = k
    · simp [dictInsert, h, lookupYear]
    · simp [dictInsert, h, lookupYear, ih]

/-- Assigning one key leaves the lookup of any other key unchanged. -/
theorem lookupYear_dictInsert_ne {α : Type} (d : List (Int × α)) (k k₁ : Int) (v : α)
    (h : k₁ ≠ k) : lookupYear (dictInsert d k v) k₁ = lookupYear d k₁ := by
  induction d with
  | nil => simp [dictInsert, lookupYear, Ne.symm h]
  | cons e rest ih =>
    obtain ⟨k₀, v₀⟩ := e
    by_cases h₀ : k₀ = k
    · subst h₀
      simp [dictInsert, lookupYear, Ne.symm h]
    · simp [dictInsert, h₀, lookupYear, ih]

/-- If the dict already maps `y` to that year's coordinate list, running
the `get_station_locations` loop over any further list of years preserves
this (a later iteration either assigns a different key or reassigns `y`
the same value). -/
theorem gsl_fold_preserve (data : List Station) (period : List Int)
    (acc : List (Int × List (Rat × Rat))) (y : Int)
    (h : lookupYear acc y = some (activeCoords data y)) :
    lookupYear
      (period.foldl (fun locations year => dictInsert locations year (activeCoords data year)) acc)
      y = some (activeCoords data y) := by
  induction period generalizing acc with
  | nil => simpa using h
  | cons year rest ih =>
    rw [List.foldl_cons]
    apply ih
    by_cases hy : year = y
    · subst hy
      exact lookupYear_dictInsert_self ..
    · rw [lookupYear_dictInsert_ne _ _ _ _ (fun hk => hy hk.symm)]
      exact h

/-- After running the `get_station_locations` loop, every year of the
period is a key of the dict and maps to that year's coordinate list. -/
theorem gsl_fold_lookup (data : List Station) (period : List Int)
    (acc : List (Int × List (Rat × Rat))) (y : Int) (h : y ∈ period) :
    lookupYear
      (period.foldl (fun locations year => dictInsert locations year (activeCoords data year)) acc)
      y = some (activeCoords data y) := by
  induction period generalizing acc with
  | nil => cases h
  | cons year rest ih =>
    rw [List.foldl_cons]
    rcases List.mem_cons.mp h with h₁ | h₂
    · subst h₁
      exact gsl_fold_preserve data rest _ y (lookupYear_dictInsert_self ..)
    · exact ih _ h₂

/-- The dict built by `get_station_locations` maps every year of the
period to that year's coordinate list. -/
theorem lookupYear_get_station_locations (data : List Station) (period : List Int)
    (y : Int) (h : y ∈ period) :
    lookupYear (get_station_locations data period) y = some (activeCoords data y) :=
  gsl_fold_lookup data period [] y h

/-- `List.min?` on integers returns the least element. -/
theorem int_min?_eq_some_iff (xs : List Int) (a : Int) :
    xs.min? = some a ↔ a ∈ xs ∧ ∀ b ∈ xs, a ≤ b := by
  haveI : Std.Antisymm (α := Int) (· ≤ ·) := ⟨le_antisymm⟩
  exact List.min?_eq_some_iff (fun x => le_refl x) (fun x y => min_choice x y)
    (fun x y z => le_min_iff)

/-- `List.max?` on integers returns the greatest element. -/
theorem int_max?_eq_some_iff (xs : List Int) (a : Int) :
    xs.max? = some a ↔ a ∈ xs ∧ ∀ b ∈ xs, b ≤ a := by
  haveI : Std.Antisymm (α := Int) (· ≤ ·) := ⟨le_antisymm⟩
  exact List.max?_eq_some_iff (fun x => le_refl x) (fun x y => max_choice x y)
    (fun x y z => max_le_iff)

/-- The least element of a non-empty end-exclusive range is its lower
bound. -/
theorem arange_min? (a b : Int) (h : a < b) : (arange a b).min? = some a := by
  rw [int_min?_eq_some_iff]
  refine ⟨(mem_arange a b a).mpr (by omega), fun y hy => ?_⟩
  have := (mem_arange a b y).mp hy
  omega

/-- The greatest element of a non-empty end-exclusive range is one less
than its upper bound. -/
theorem arange_max? (a b : Int) (h : a < b) : (arange a b).max? = some (b - 1) := by
  rw [int_max?_eq_some_iff]
  refine ⟨(mem_arange a b (b - 1)).mpr (by omega), fun y hy => ?_⟩
  have := (mem_arange a b y).mp hy
  omega

/-- `draw_frame` succeeds when the frame index is in bounds, the year is a
key of the locations dict, and the stored coordinate list is non-empty. -/
theorem draw_frame_isSome {β : Type} (st : AnimState β) (i : Nat) (year : Int)
    (coords : List (Rat × Rat)) (hy : st.period[i]? = some year)
    (hl : lookupYear st.locations year = some coords) (hne : coords ≠ []) :
    (draw_frame st i).isSome := by
  unfold draw_frame
  split
  · rename_i h₀
    rw [hy] at h₀
    exact absurd h₀ (by simp)
  · rename_i year₂ hy₂
    rw [hy] at hy₂
    obtain rfl := Option.some.inj hy₂
    split
    · rename_i h₀
      rw [hl] at h₀
      exact absurd h₀ (by simp)
    · rename_i coords₂ hl₂
      rw [hl] at hl₂
      obtain rfl := Option.some.inj hl₂
      rw [if_neg (by simpa [List.isEmpty_iff] using hne)]
      rfl

end Lemmas

/-- C5: when the table contains no stations, `get_data_period` fails (the
empty-column aggregate has no value) rather than returning an empty period
sequence. -/
theorem get_data_period_empty_fails : get_data_period ([] : List Station) = none := rfl

/-- C6: for a table with exactly two stations with ranges [2000, 2005] and
[2003, 2010], the derived period is [2000 .. 2009], the count for year
2004 (position 4) is 2, the count for year 2001 (position 1) is 1, and
2010 is excluded from the period by the end-exclusive derivation, so no
count is computed for it. -/
theorem two_station_scenario :
    get_data_period [⟨2000, 2005, 10, 20⟩, ⟨2003, 2010, 30, 40⟩] =
      some (2000, 2010, [2000, 2001, 2002, 2003, 2004, 2005, 2006, 2007, 2008, 2009]) ∧
    count_stations [⟨2000, 2005, 10, 20⟩, ⟨2003, 2010, 30, 40⟩]
        [2000, 2001, 2002, 2003, 2004, 2005, 2006, 2007, 2008, 2009] =
      [1, 1, 1, 2, 2, 2, 1, 1, 1, 1] ∧
    (count_stations [⟨2000, 2005, 10, 20⟩, ⟨2003, 2010, 30, 40⟩]
        [2000, 2001, 2002, 2003, 2004, 2005, 2006, 2007, 2008, 2009])[4]? = some 2 ∧
    (count_stations [⟨2000, 2005, 10, 20⟩, ⟨2003, 2010, 30, 40⟩]
        [2000, 2001, 2002, 2003, 2004, 2005, 2006, 2007, 2008, 2009])[1]? = some 1 ∧
    (2010 : Int) ∉ [(2000 : Int), 2001, 2002, 2003, 2004, 2005, 2006, 2007, 2008, 2009] := by
  refine ⟨?_, ?_, ?_, ?_, ?_⟩ <;> decide

/-- C1: at every position of the period, the count computed by
`count_stations` equals the length of the coordinate list that
`get_station_locations` stores for the year at that position. -/
theorem count_matches_locations (data : List Station) (period : List Int) (i : Nat)
    (h : i < period.length) :
    ∃ year ls, period[i]? = some year ∧
      lookupYear (get_station_locations data period) year = some ls ∧
      (count_stations data period)[i]? = some ((ls.length : Int)) := by
  refine ⟨period[i], activeCoords data period[i], List.getElem?_eq_getElem h, ?_, ?_⟩
  · exact lookupYear_get_station_locations data period _ (List.getElem_mem h)
  · rw [count_stations, List.getElem?_map, List.getElem?_eq_getElem h]
    have hlen : (activeCoords data period[i]).length =
        (data.filter (fun s => isActive s period[i])).length := by
      rw [activeCoords_eq, List.length_map]
    simp [countActive_eq, hlen]

/-- C1 witness: a concrete instantiation of `count_matches_locations`. -/
theorem count_matches_locations_witness :
    0 < [(2001 : Int)].length ∧
    ∃ year ls, ([(2001 : Int)])[0]? = some year ∧
      lookupYear (get_station_locations [⟨2000, 2005, 10, 20⟩] [(2001 : Int)]) year = some ls ∧
      (count_stations [⟨2000, 2005, 10, 20⟩] [(2001 : Int)])[0]? = some ((ls.length : Int)) :=
  ⟨by decide, count_matches_locations [⟨2000, 2005, 10, 20⟩] [(2001 : Int)] 0 (by decide)⟩

/-- C2: `count_stations` returns one count per year, positionally aligned
with the period; the count at position `i` is exactly the number of rows
whose activity test holds for the year at position `i`, and every station
so counted satisfies `m_start ≤ year ≤ m_end`. -/
theorem count_stations_characterization (data : List Station) (period : List Int) (i : Nat)
    (h : i < period.length) :
    (count_stations data period).length = period.length ∧
    ∃ year, period[i]? = some year ∧
      (count_stations data period)[i]? =
        some (((data.filter (fun s => isActive s year)).length : Int)) ∧
      ∀ s ∈ data.filter (fun s => isActive s year), s.m_start ≤ year ∧ year ≤ s.m_end := by
  refine ⟨by simp [count_stations], period[i], List.getElem?_eq_getElem h, ?_, ?_⟩
  · rw [count_stations, List.getElem?_map, List.getElem?_eq_getElem h]
    simp [countActive_eq]
  · intro s hs
    exact (isActive_iff s period[i]).mp (List.mem_filter.mp hs).2

/-- C2 witness: a concrete instantiation of
`count_stations_characterization`. -/
theorem count_stations_characterization_witness :
    0 < [(2001 : Int), 2007].length ∧
    ((count_stations [⟨2000, 2005, 10, 20⟩] [(2001 : Int), 2007]).length =
        [(2001 : Int), 2007].length ∧
      ∃ year, ([(2001 : Int), 2007])[0]? = some year ∧
        (count_stations [⟨2000, 2005, 10, 20⟩] [(2001 : Int), 2007])[0]? =
          some ((([⟨2000, 2005, 10, 20⟩] : List Station).filter
            (fun s => isActive s year)).length : Int) ∧
        ∀ s ∈ ([⟨2000, 2005, 10, 20⟩] : List Station).filter (fun s => isActive s year),
          s.m_start ≤ year ∧ year ≤ s.m_end) :=
  ⟨by decide, count_stations_characterization [⟨2000, 2005, 10, 20⟩] [(2001 : Int), 2007] 0
    (by decide)⟩

/-- C7: every per-year count returned by `count_stations` is non-negative
and never exceeds the number of rows of the table. -/
theorem count_stations_bounded (data : List Station) (period : List Int) (i : Nat)
    (h : i < period.length) :
    ∃ c, (count_stations data period)[i]? = some c ∧ 0 ≤ c ∧ c ≤ (data.length : Int) := by
  refine ⟨countActive data period[i], ?_, ?_, ?_⟩
  · rw [count_stations, List.getElem?_map, List.getElem?_eq_getElem h]
    rfl
  · rw [countActive_eq]
    exact_mod_cast Nat.zero_le _
  · rw [countActive_eq]
    exact_mod_cast List.length_filter_le _ _

/-- C7 witness: a concrete instantiation of `count_stations_bounded`. -/
theorem count_stations_bounded_witness :
    0 < [(2001 : Int)].length ∧
    ∃ c, (count_stations [⟨2000, 2005, 10, 20⟩, ⟨2003, 2010, 30, 40⟩] [(2001 : Int)])[0]? =
        some c ∧ 0 ≤ c ∧
      c ≤ (([⟨2000, 2005, 10, 20⟩, ⟨2003, 2010, 30, 40⟩] : List Station).length : Int) :=
  ⟨by decide, count_stations_bounded [⟨2000, 2005, 10, 20⟩, ⟨2003, 2010, 30, 40⟩]
    [(2001 : Int)] 0 (by decide)⟩

/-- C3: for a non-empty table whose global minimum start year is strictly
below its global maximum end year, `get_data_period` returns the bounds
`m_start = min` of the start-year column and `m_end = max` of the end-year
column, together with the contiguous integer range whose minimum is
`m_start` and whose maximum is `m_end - 1` (end-exclusive). -/
theorem get_data_period_bounds (data : List Station) (m_start m_end : Int)
    (period : List Int) (h : get_data_period data = some (m_start, m_end, period))
    (hlt : m_start < m_end) :
    (data.map Station.m_start).min? = some m_start ∧
    (data.map Station.m_end).max? = some m_end ∧
    period.min? = some m_start ∧
    period.max? = some (m_end - 1) ∧
    ∀ y : Int, y ∈ period ↔ m_start ≤ y ∧ y ≤ m_end - 1 := by
  unfold get_data_period at h
  cases hmin : (data.map Station.m_start).min? with
  | none => rw [hmin] at h; exact absurd h (by simp)
  | some a =>
    cases hmax : (data.map Station.m_end).max? with
    | none => rw [hmin, hmax] at h; exact absurd h (by simp)
    | some b =>
      rw [hmin, hmax] at h
      simp only [Option.some.injEq, Prod.mk.injEq] at h
      obtain ⟨rfl, rfl, rfl⟩ := h
      refine ⟨rfl, rfl, arange_min? _ _ hlt, arange_max? _ _ hlt, fun y => ?_⟩
      rw [mem_arange]
      omega

/-- C3 witness: a concrete instantiation of `get_data_period_bounds`. -/
theorem get_data_period_bounds_witness :
    get_data_period [(⟨2000, 2005, 10, 20⟩ : Station)] =
      some (2000, 2005, [2000, 2001, 2002, 2003, 2004]) ∧
    (2000 : Int) < 2005 ∧
    (([(⟨2000, 2005, 10, 20⟩ : Station)]).map Station.m_start).min? = some 2000 ∧
    (([(⟨2000, 2005, 10, 20⟩ : Station)]).map Station.m_end).max? = some 2005 ∧
    ([(2000 : Int), 2001, 2002, 2003, 2004]).min? = some 2000 ∧
    ([(2000 : Int), 2001, 2002, 2003, 2004]).max? = some (2005 - 1) ∧
    ∀ y : Int, y ∈ [(2000 : Int), 2001, 2002, 2003, 2004] ↔ 2000 ≤ y ∧ y ≤ 2005 - 1 :=
  ⟨by decide, by decide,
    get_data_period_bounds [⟨2000, 2005, 10, 20⟩] 2000 2005
      [2000, 2001, 2002, 2003, 2004] (by decide) (by decide)⟩

/-- C4 counterexample: for a table with one station with range
[2000, 2005], `get_data_period` returns the period [2000 .. 2004], which
does not contain the maximum end year 2005 — the claim that the period
contains the maximum end year fails. -/
theorem period_omits_max_end :
    get_data_period [(⟨2000, 2005, 10, 20⟩ : Station)] =
      some (2000, 2005, [2000, 2001, 2002, 2003, 2004]) ∧
    (2005 : Int) ∉ [(2000 : Int), 2001, 2002, 2003, 2004] := by
  refine ⟨by decide, by decide⟩

/-- C4 (amended): provided the minimum start year is strictly below the
maximum end year, the period returned by `get_data_period` is a contiguous
strictly increasing sequence of integer years spanning from the minimum
start year to the maximum end year minus one: it contains `m_end - 1` but
not the maximum end year `m_end`, and every station's operational range
lies within `[m_start, m_end]`. -/
theorem get_data_period_span (data : List Station) (m_start m_end : Int)
    (period : List Int) (h : get_data_period data = some (m_start, m_end, period))
    (hlt : m_start < m_end) :
    List.Pairwise (· < ·) period ∧
    (∀ y : Int, y ∈ period ↔ m_start ≤ y ∧ y < m_end) ∧
    (m_end - 1) ∈ period ∧
    m_end ∉ period ∧
    ∀ s ∈ data, m_start ≤ s.m_start ∧ s.m_end ≤ m_end := by
  unfold get_data_period at h
  cases hmin : (data.map Station.m_start).min? with
  | none => rw [hmin] at h; exact absurd h (by simp)
  | some a =>
    cases hmax : (data.map Station.m_end).max? with
    | none => rw [hmin, hmax] at h; exact absurd h (by simp)
    | some b =>
      rw [hmin, hmax] at h
      simp only [Option.some.injEq, Prod.mk.injEq] at h
      obtain ⟨rfl, rfl, rfl⟩ := h
      refine ⟨?_, fun y => mem_arange .., ?_, ?_, ?_⟩
      · exact (List.pairwise_lt_range _).map _ (fun x y hxy => by omega)
      · rw [mem_arange]
        omega
      · rw [mem_arange]
        omega
      · intro s hs
        constructor
        · exact ((int_min?_eq_some_iff _ _).mp hmin).2 s.m_start
            (List.mem_map_of_mem Station.m_start hs)
        · exact ((int_max?_eq_some_iff _ _).mp hmax).2 s.m_end
            (List.mem_map_of_mem Station.m_end hs)

/-- C4 witness: a concrete instantiation of `get_data_period_span`. -/
theorem get_data_period_span_witness :
    get_data_period [(⟨2000, 2005, 10, 20⟩ : Station)] =
      some (2000, 2005, [2000, 2001, 2002, 2003, 2004]) ∧
    (2000 : Int) < 2005 ∧
    (List.Pairwise (· < ·) [(2000 : Int), 2001, 2002, 2003, 2004] ∧
      (∀ y : Int, y ∈ [(2000 : Int), 2001, 2002, 2003, 2004] ↔ 2000 ≤ y ∧ y < 2005) ∧
      ((2005 : Int) - 1) ∈ [(2000 : Int), 2001, 2002, 2003, 2004] ∧
      (2005 : Int) ∉ [(2000 : Int), 2001, 2002, 2003, 2004] ∧
      ∀ s ∈ [(⟨2000, 2005, 10, 20⟩ : Station)], 2000 ≤ s.m_start ∧ s.m_end ≤ 2005) :=
  ⟨by decide, by decide,
    get_data_period_span [⟨2000, 2005, 10, 20⟩] 2000 2005
      [2000, 2001, 2002, 2003, 2004] (by decide) (by decide)⟩

/-- C8: a successful frame transition for frame index `i` sets the count
line to the period/count data up to (excluding) position `i`, replaces the
point-cloud with the active coordinates stored for `period[i]`, sets the
year label to that year, records exactly the three dynamic drawables as
drawn, and leaves every other component of the state unchanged — the
aggregates and the remaining figure state (`background`) are untouched. -/
theorem draw_frame_effect {β : Type} (st : AnimState β) (i : Nat) (st' : AnimState β)
    (h : draw_frame st i = some st') :
    ∃ year coords, st.period[i]? = some year ∧
      lookupYear st.locations year = some coords ∧
      st'.time_data = (st.period.take i, st.stations.take i) ∧
      st'.space_data = (coords.map Prod.fst, coords.map Prod.snd) ∧
      st'.text = toString year ∧
      st'.drawn_artists = [Artist.time, Artist.space, Artist.text] ∧
      st'.stations = st.stations ∧
      st'.locations = st.locations ∧
      st'.period = st.period ∧
      st'.background = st.background := by
  unfold draw_frame at h
  split at h
  · exact absurd h (by simp)
  · rename_i year hy
    split at h
    · exact absurd h (by simp)
    · rename_i coords hl
      split at h
      · exact absurd h (by simp)
      · obtain rfl := (Option.some.inj h).symm
        exact ⟨year, coords, hy, hl, rfl, rfl, rfl, rfl, rfl, rfl, rfl, rfl⟩

/-- C8 witness: a concrete instantiation of `draw_frame_effect` on the
state `exSt`. -/
theorem draw_frame_effect_witness :
    draw_frame exSt 0 = some exSt' ∧
    ∃ year coords, exSt.period[0]? = some year ∧
      lookupYear exSt.locations year = some coords ∧
      exSt'.time_data = (exSt.period.take 0, exSt.stations.take 0) ∧
      exSt'.space_data = (coords.map Prod.fst, coords.map Prod.snd) ∧
      exSt'.text = toString year ∧
      exSt'.drawn_artists = [Artist.time, Artist.space, Artist.text] ∧
      exSt'.stations = exSt.stations ∧
      exSt'.locations = exSt.locations ∧
      exSt'.period = exSt.period ∧
      exSt'.background = exSt.background :=
  ⟨rfl, draw_frame_effect exSt 0 exSt' rfl⟩

/-- C9: the frame sequence is exactly `0, 1, ..., period.length - 1` (the
scheduler stops once the frame index reaches the period length), and for
every frame index `i` in it — when the locations dict was built by
`get_station_locations` over the animation's period — the accesses of
`_draw_frame` are defined: `period[i]` is in bounds, the dict contains
the key `period[i]`, and the whole frame transition (including the
longitude/latitude column extraction) succeeds whenever at least one
station is active in that year. -/
theorem new_frame_seq_safe {β : Type} (st : AnimState β) (data : List Station) (i : Nat)
    (hloc : st.locations = get_station_locations data st.period)
    (hi : i < st.period.length) :
    new_frame_seq st = List.range st.period.length ∧
    ∃ year, st.period[i]? = some year ∧
      (lookupYear st.locations year).isSome ∧
      ((∃ s ∈ data, isActive s year) → (draw_frame st i).isSome) := by
  have hmem : st.period[i] ∈ st.period := List.getElem_mem hi
  have hlook : lookupYear st.locations st.period[i] =
      some (activeCoords data st.period[i]) := by
    rw [hloc]
    exact lookupYear_get_station_locations data st.period _ hmem
  refine ⟨rfl, st.period[i], List.getElem?_eq_getElem hi, by rw [hlook]; rfl, ?_⟩
  rintro ⟨s, hs, hact⟩
  have hne : activeCoords data st.period[i] ≠ [] := by
    rw [activeCoords_eq]
    intro hnil
    rw [List.map_eq_nil_iff, List.filter_eq_nil_iff] at hnil
    exact hnil s hs hact
  exact draw_frame_isSome st i st.period[i] (activeCoords data st.period[i])
    (List.getElem?_eq_getElem hi) hlook hne

/-- C9 witness: a concrete instantiation of `new_frame_seq_safe` on the
state `exSt`. -/
theorem new_frame_seq_safe_witness :
    exSt.locations = get_station_locations [⟨2000, 2005, 10, 20⟩] exSt.period ∧
    0 < exSt.period.length ∧
    (new_frame_seq exSt = List.range exSt.period.length ∧
      ∃ year, exSt.period[0]? = some year ∧
        (lookupYear exSt.locations year).isSome ∧
        ((∃ s ∈ ([⟨2000, 2005, 10, 20⟩] : List Station), isActive s year) →
          (draw_frame exSt 0).isSome)) :=
  ⟨by decide, by decide, new_frame_seq_safe exSt [⟨2000, 2005, 10, 20⟩] 0 (by decide) (by decide)⟩

/-- The inner-loop body of `count_stations` writes only the output array:
the table and period components of the state are unchanged. -/
theorem countBody_fst (σ : Env × List Int) (ip is : Nat) : (countBody σ ip is).1 = σ.1 := by
  unfold countBody
  split
  · split
    · split <;> rfl
    · rfl
  · rfl

/-- A fold whose body keeps the first component of the state fixed keeps
it fixed over the whole run. -/
theorem foldl_fst_invariant {γ δ : Type} (f : (Env × γ) → δ → (Env × γ))
    (hf : ∀ σ x, (f σ x).1 = σ.1) (l : List δ) (σ : Env × γ) :
    (l.foldl f σ).1 = σ.1 := by
  induction l generalizing σ with
  | nil => rfl
  | cons x l ih => rw [List.foldl_cons, ih, hf]

/-- C10: `count_stations` and `get_station_locations` are read-only over
their inputs: after either loop runs, the table (and thereby its
`m_start`, `m_end`, `lat` and `long` columns) and the period array in the
final state are exactly the inputs — only the freshly allocated output
array / dict is written. -/
theorem aggregation_readonly (data : List Station) (period : List Int) :
    (count_stations_run data period).1 = ⟨data, period⟩ ∧
    (get_station_locations_run data period).1 = ⟨data, period⟩ := by
  constructor
  · unfold count_stations_run
    exact foldl_fst_invariant _
      (fun σ ip => foldl_fst_invariant _ (fun τ is => countBody_fst τ ip is) _ σ) _ _
  · unfold get_station_locations_run
    exact foldl_fst_invariant gslBody (fun σ y => rfl) period _

section Agreement

/-- Running the inner loop of `count_stations_run` over the first `m` row
indices increments the `ip`-th entry of the output array by the number of
active stations among those rows, and changes nothing else. -/
theorem count_inner_loop (e : Env) (year : Int) (ip : Nat)
    (hyear : e.period[ip]? = some year) (m : Nat) (st : List Int) (hip : ip < st.length) :
    (List.range m).foldl (fun τ is => countBody τ ip is) (e, st) =
      (e, st.set ip (st[ip] +
        (((e.data.take m).filter (fun s => isActive s year)).length : Int))) := by
  induction m with
  | zero =>
    simp only [List.range_zero, List.foldl_nil, List.take_zero, List.filter_nil,
      List.length_nil, Nat.cast_zero, add_zero]
    congr 1
    exact (List.ext_getElem? fun j => by
      by_cases hj : j = ip
      · subst hj
        rw [List.getElem?_set_self hip, List.getElem?_eq_getElem hip]
      · rw [List.getElem?_set_ne (fun hh => hj hh.symm)]).symm
  | succ m ih =>
    rw [List.range_succ, List.foldl_append, ih, List.foldl_cons, List.foldl_nil]
    cases hdm : e.data[m]? with
    | none =>
      have htake : e.data.take (m + 1) = e.data.take m := by
        rw [List.take_succ, hdm]
        simp
      rw [htake]
      simp only [countBody, hyear, hdm]
    | some s =>
      have htake : e.data.take (m + 1) = e.data.take m ++ [s] := by
        rw [List.take_succ, hdm]
        rfl
      have hget : (st.set ip (st[ip] +
          (((e.data.take m).filter (fun t => isActive t year)).length : Int)))[ip]? =
          some (st[ip] + (((e.data.take m).filter (fun t => isActive t year)).length : Int)) :=
        List.getElem?_set_self hip
      by_cases hact : isActive s year
      · have hval : (((e.data.take (m + 1)).filter (fun t => isActive t year)).length : Int) =
            (((e.data.take m).filter (fun t => isActive t year)).length : Int) + 1 := by
          rw [htake, List.filter_append, List.filter_cons]
          simp [hact]
        rw [hval]
        simp only [countBody, hyear, hdm, hget, hact, if_true]
        rw [List.set_set, add_assoc]
      · have hval : ((e.data.take (m + 1)).filter (fun t => isActive t year)) =
            ((e.data.take m).filter (fun t => isActive t year)) := by
          rw [htake, List.filter_append, List.filter_cons]
          simp [hact]
        simp only [countBody, hyear, hdm, hget, hact, Bool.false_eq_true, if_false]
        rw [hval]

/-- After the outer loop of `count_stations_run` has processed the first
`k` year positions, the output array holds the active-station counts at
positions below `k` and still holds zeros above. -/
theorem count_outer_loop (data : List Station) (period : List Int) (k : Nat)
    (hk : k ≤ period.length) :
    ∃ st, (List.range k).foldl
        (fun σ ip => (List.range σ.1.data.length).foldl (fun τ is => countBody τ ip is) σ)
        (⟨data, period⟩, List.replicate period.length 0) = (⟨data, period⟩, st) ∧
      st.length = period.length ∧
      ∀ j (hj : j < period.length),
        st[j]? = some (if j < k then countActive data period[j] else 0) := by
  induction k with
  | zero =>
    refine ⟨List.replicate period.length 0, rfl, List.length_replicate .., fun j hj => ?_⟩
    simp [List.getElem?_replicate, hj]
  | succ k ih =>
    obtain ⟨st, heq, hlen, hval⟩ := ih (Nat.le_of_succ_le hk)
    have hkn : k < period.length := hk
    have hip : k < st.length := by omega
    have hstk : st[k] = 0 := by
      have := hval k hkn
      rw [List.getElem?_eq_getElem hip] at this
      simp only [Nat.lt_irrefl, if_false] at this
      exact Option.some.inj this
    refine ⟨st.set k (st[k] +
        (((data.take data.length).filter (fun s => isActive s period[k])).length : Int)),
      ?_, by simpa using hlen, ?_⟩
    · rw [List.range_succ, List.foldl_append, heq, List.foldl_cons, List.foldl_nil]
      exact count_inner_loop ⟨data, period⟩ period[k] k
        (List.getElem?_eq_getElem hkn) data.length st hip
    · intro j hj
      by_cases hjk : j = k
      · subst hjk
        rw [List.getElem?_set_self hip, hstk, List.take_length, countActive_eq]
        simp
      · rw [List.getElem?_set_ne (fun hh => hjk hh.symm), hval j hj]
        by_cases hjlt : j < k
        · rw [if_pos hjlt, if_pos (by omega)]
        · rw [if_neg hjlt, if_neg (by omega)]

/-- The state-transformer embedding of `count_stations` agrees with the
functional one: the loops leave the table and period untouched and
produce exactly `count_stations data period` in the output array. -/
theorem count_stations_run_agrees (data : List Station) (period : List Int) :
    count_stations_run data period = (⟨data, period⟩, count_stations data period) := by
  unfold count_stations_run
  obtain ⟨st, heq, hlen, hval⟩ := count_outer_loop data period period.length le_rfl
  rw [heq]
  congr 1
  apply List.ext_getElem?
  intro j
  by_cases hjn : j < period.length
  · rw [hval j hjn]
    simp [count_stations, List.getElem?_map, List.getElem?_eq_getElem hjn, hjn]
  · rw [List.getElem?_eq_none (by omega),
      List.getElem?_eq_none (by simp [count_stations]; omega)]

/-- Running the `get_station_locations` loop from any environment and any
starting dict threads the environment through unchanged and folds the
dict exactly as the functional definition does. -/
theorem gslBody_fold (l : List Int) (e : Env) (d : List (Int × List (Rat × Rat))) :
    l.foldl gslBody (e, d) =
      (e, l.foldl (fun locs y => dictInsert locs y (activeCoords e.data y)) d) := by
  induction l generalizing d with
  | nil => rfl
  | cons y l ih =>
    rw [List.foldl_cons, List.foldl_cons]
    exact ih _

/-- The state-transformer embedding of `get_station_locations` agrees
with the functional one. -/
theorem get_station_locations_run_agrees (data : List Station) (period : List Int) :
    get_station_locations_run data period =
      (⟨data, period⟩, get_station_locations data period) := by
  unfold get_station_locations_run get_station_locations
  exact gslBody_fold period ⟨data, period⟩ []

end Agreement
